import Mathlib

/-!
Verification of components of the guacamole-server sources against their
natural-language specification.

Shallow embedding conventions:
  - C byte strings are `List Nat` carrying the explicit byte sequence of an
    argument; C string functions (strlen, atoi) observe only the bytes before
    the first NUL byte, which the embedding makes explicit.
  - C `int` values are `Int`; C integer division and remainder truncate
    toward zero, embedded as `Int.tdiv` and `Int.tmod`.
  - Stateful C code is embedded in explicit state-passing style.
-/

namespace Guac

/-- A byte-string argument as delivered by the instruction parser: the full
explicit-length byte sequence (binary safe, may contain NUL bytes). -/
abbrev ByteStr := List Nat

/-- Embedding of C strlen over the byte sequence: counts the bytes strictly
before the first NUL (0) byte. -/
def cstrlen : ByteStr → Nat
  | [] => 0
  | b :: bs => if b = 0 then 0 else cstrlen bs + 1

/-- The bytes strictly before the first NUL byte: exactly the portion of an
argument that C string functions can observe. -/
def beforeNul : ByteStr → ByteStr
  | [] => []
  | b :: bs => if b = 0 then [] else b :: beforeNul bs

/-- C isspace over the default locale: space and the five control
whitespace characters (tab through carriage return). -/
def isSpaceByte (c : Nat) : Bool := c == 32 || (9 ≤ c && c ≤ 13)

/-- Digit-accumulation loop of C atoi: consumes leading decimal digits,
stops at the first non-digit byte (a NUL byte is not a digit). -/
def atoiLoop : ByteStr → Int → Int
  | [], acc => acc
  | c :: cs, acc =>
    if 48 ≤ c && c ≤ 57 then atoiLoop cs (acc * 10 + ((c : Int) - 48))
    else acc

/-- Embedding of C atoi: skip leading whitespace, read an optional sign
(byte 43 is the plus sign, byte 45 the minus sign), then decimal digits. -/
def atoi (s : ByteStr) : Int :=
  match s.dropWhile isSpaceByte with
  | [] => 0
  | c :: rest =>
    if c = 43 then atoiLoop rest 0
    else if c = 45 then - atoiLoop rest 0
    else atoiLoop (c :: rest) 0

/-! Stream Buffer Table state: the open streams of the replay, keyed by
their caller-assigned integer index, each holding an accumulated byte
buffer. The blob handler in src/guacenc/instruction-blob.c has no access
to any such table (its C signature is `int guacenc_handle_blob(int argc,
const char** argv)`); the table is threaded through the embedding so that
statements about (absence of) state change can be expressed. -/

structure GuacencState where
  streams : List (Int × ByteStr)
deriving DecidableEq

/-- Look up the accumulated buffer of the open stream at the given index. -/
def streamLookup (st : GuacencState) (i : Int) : Option ByteStr :=
  (st.streams.find? (fun p => p.1 == i)).map Prod.snd

/-- The data logged by the stub branch of the blob handler: the parsed
stream index and the strlen of the data argument. -/
structure GuacencLogEntry where
  stream : Int
  chars : Nat
deriving DecidableEq

/-- Result of one blob-handler invocation: the C return value, the values
logged by the stub log line (when reached), and the stream table after the
call. -/
structure GuacencHandleResult where
  ret : Int
  blobLog : Option GuacencLogEntry
  st : GuacencState
deriving DecidableEq

/-- Embedding of `guacenc_handle_blob` (src/guacenc/instruction-blob.c).
The source checks `argc < 2` and returns 1 (after a debug log line that
carries no data, not modelled); otherwise it parses `index = atoi(argv[0])`
and `data = argv[1]`, logs the stub line with `strlen(data)`, and returns 0.
The function body is an explicit STUB: it reads no stream table and writes
no stream table, so the threaded state is returned unchanged. -/
def guacenc_handle_blob (argv : List ByteStr) (st : GuacencState) :
    GuacencHandleResult :=
  if argv.length < 2 then
    { ret := 1, blobLog := none, st := st }
  else
    let index := atoi (argv.getD 0 [])
    let data := argv.getD 1 []
    { ret := 0, blobLog := some { stream := index, chars := cstrlen data }, st := st }

/-- The blob handler as the specification words describe it (Stream Buffer
Table append): append the data bytes of argv[1] to the accumulated buffer
of the open stream whose index is the integer value of argv[0]; an
unopened index is an error (none). Declared only to be compared against
the code embedding above. -/
def spec_handle_blob (argv : List ByteStr) (st : GuacencState) :
    Option GuacencState :=
  if argv.length < 2 then none
  else
    let index := atoi (argv.getD 0 [])
    let data := argv.getD 1 []
    match streamLookup st index with
    | none => none
    | some buf =>
        some { streams := st.streams.map
                 (fun p => if p.1 == index then (p.1, buf ++ data) else p) }

/-! Frame Clock synchronization-timestamp ordering. -/

/-- Modelled from the spec: the Frame Clock monotonicity check of the
synchronization handler, whose source is not among the provided files.
The spec (section 4.5 and property 8.6) says a synchronization timestamp
lower than the previously observed one is a fatal ordering error that
halts further processing; otherwise the timestamp is recorded and replay
continues. The state is the last observed timestamp (none before the
first synchronization instruction). -/
def runSyncs : Option Int → List Int → Except Unit (Option Int)
  | last, [] => Except.ok last
  | last, t :: ts =>
    match last with
    | some p => if t < p then Except.error () else runSyncs (some t) ts
    | none => runSyncs (some t) ts

/-! Top-level encode outcome. -/

/-- Outcome classification of the top-level encode operation, following the
completion-signal taxonomy of the spec (sections 6 and 7). -/
inductive GuacencOutcome
  | success
  | parseError
  | encoderInitError
  | writeError
deriving DecidableEq

/-- Modelled from the spec: the pipeline of `guacenc_encode` (its C
definition is not among the provided files; src/guacenc/encode.h only
declares it). Encoder initialization failure aborts before any replay
work; a parse or semantic error during replay (modelled by the Frame
Clock ordering check over the dump timestamps) is fatal; an output write
failure is fatal; otherwise the replay completes successfully. -/
def guacenc_encode_outcome (encoderInitOk : Bool) (syncs : List Int)
    (writeOk : Bool) : GuacencOutcome :=
  if !encoderInitOk then GuacencOutcome.encoderInitError
  else
    match runSyncs none syncs with
    | Except.error _ => GuacencOutcome.parseError
    | Except.ok _ =>
        if writeOk then GuacencOutcome.success else GuacencOutcome.writeError

/-- Modelled from the spec: the int value returned by `guacenc_encode`:
zero on success, and a distinct non-zero value for each failure kind
(the spec says failure additionally distinguishes the three kinds). -/
def guacenc_encode_ret : GuacencOutcome → Int
  | GuacencOutcome.success => 0
  | GuacencOutcome.parseError => 1
  | GuacencOutcome.encoderInitError => 2
  | GuacencOutcome.writeError => 3

/-- Modelled from the spec: `guacenc_encode` as declared in
src/guacenc/encode.h, over the abstracted inputs. -/
def guacenc_encode (encoderInitOk : Bool) (syncs : List Int)
    (writeOk : Bool) : Int :=
  guacenc_encode_ret (guacenc_encode_outcome encoderInitOk syncs writeOk)

/-! RDP display-update channel sizing (src/protocols/rdp/rdp_disp.c).
The bound constants GUAC_RDP_DISP_MIN_SIZE and GUAC_RDP_DISP_MAX_SIZE are
defined in a header not among the provided files, so they are parameters
MINS and MAXS below. -/

/-- C `int` division: truncation toward zero. -/
def cdiv (a b : Int) : Int := a.tdiv b

/-- C `int` remainder: truncation toward zero, sign of the dividend. -/
def cmod (a b : Int) : Int := a.tmod b

/-- The fields of `guac_rdp_disp` relevant to sizing. -/
structure guac_rdp_disp where
  requested_width : Int
  requested_height : Int
  last_request : Int
deriving DecidableEq

/-- Embedding of the static helper `guac_rdp_disp_fit`: fits dimension a
into [MINS, MAXS], adjusting b to keep the aspect ratio, clamping the
adjusted value into the allowed range on the side it may overflow. The C
function mutates both ints through pointers; the embedding returns the
pair (new a, new b). -/
def guac_rdp_disp_fit (MINS MAXS : Int) (a b : Int) : Int × Int :=
  let a_value := a
  let b_value := b
  if a_value < MINS then
    let adjusted_b := cdiv (b_value * MINS) a_value
    let adjusted_b := if adjusted_b > MAXS then MAXS else adjusted_b
    (MINS, adjusted_b)
  else if a_value > MAXS then
    let adjusted_b := cdiv (b_value * MAXS) a_value
    let adjusted_b := if adjusted_b < MINS then MINS else adjusted_b
    (MAXS, adjusted_b)
  else (a, b)

/-- The width/height computation of `guac_rdp_disp_set_size`: fit width
(adjusting height), then fit height (adjusting width), then force the
width even by decrementing an odd width. Returns (width, height) as
stored into requested_width / requested_height. -/
def guac_rdp_disp_set_size_dims (MINS MAXS : Int) (width height : Int) :
    Int × Int :=
  let p1 := guac_rdp_disp_fit MINS MAXS width height
  let p2 := guac_rdp_disp_fit MINS MAXS p1.2 p1.1
  let w := if cmod p2.2 2 = 1 then p2.2 - 1 else p2.2
  (w, p2.1)

/-- Embedding of `guac_rdp_disp_set_size`: stores the fitted dimensions
into the structure. (The subsequent call to guac_rdp_disp_update_size
reads but does not modify requested_width / requested_height.) -/
def guac_rdp_disp_set_size (MINS MAXS : Int) (disp : guac_rdp_disp)
    (width height : Int) : guac_rdp_disp :=
  let p := guac_rdp_disp_set_size_dims MINS MAXS width height
  { disp with requested_width := p.1, requested_height := p.2 }

/-! Terminal typescript buffering (src/terminal/typescript.c). The buffer
is a fixed-size char array in the C struct; the embedding keeps the whole
storage as a list whose length is the capacity (sizeof buffer), with the
`length` field counting the valid bytes. The timing-file line produced by
snprintf is abstracted to the pair of values it formats (clamped elapsed
time and flushed length); the data file is the list of bytes written so
far. GUAC_TERMINAL_TYPESCRIPT_MAX_DELAY comes from a header not among the
provided files and is a parameter maxDelay; the current wall-clock time
read by guac_timestamp_current() is a parameter now. -/

structure guac_terminal_typescript where
  buffer : List Nat
  length : Nat
  data_file : List Nat
  timing_file : List (Int × Nat)
  last_flush : Int
deriving DecidableEq

/-- Embedding of `guac_terminal_typescript_flush`: does nothing when the
buffer holds no data; otherwise writes one timing record (elapsed time
since the previous flush, clamped above at maxDelay, with the flushed
length), appends the valid buffer bytes to the data file, resets the
length to zero and records the flush time. -/
def guac_terminal_typescript_flush (maxDelay now : Int)
    (ts : guac_terminal_typescript) : guac_terminal_typescript :=
  if ts.length = 0 then ts
  else
    let elapsed_time := now - ts.last_flush
    let elapsed_time := if elapsed_time > maxDelay then maxDelay else elapsed_time
    { ts with
      timing_file := ts.timing_file ++ [(elapsed_time, ts.length)]
      data_file := ts.data_file ++ ts.buffer.take ts.length
      length := 0
      last_flush := now }

/-- Embedding of `guac_terminal_typescript_write`: flushes first exactly
when the buffer is full (length equals the capacity sizeof buffer), then
stores the byte at index length and increments length. -/
def guac_terminal_typescript_write (maxDelay now : Int)
    (ts : guac_terminal_typescript) (c : Nat) : guac_terminal_typescript :=
  let ts :=
    if ts.length = ts.buffer.length
    then guac_terminal_typescript_flush maxDelay now ts
    else ts
  { ts with buffer := ts.buffer.set ts.length c, length := ts.length + 1 }

/-- A sample typescript state for concrete witnesses: capacity 4 with two
valid buffered bytes. -/
def tsSample : guac_terminal_typescript :=
  { buffer := [9, 9, 9, 9], length := 2, data_file := [], timing_file := [],
    last_flush := 0 }

/-- A sample typescript state with an empty buffer for concrete witnesses. -/
def tsSampleEmpty : guac_terminal_typescript :=
  { buffer := [9, 9], length := 0, data_file := [3], timing_file := [(1, 1)],
    last_flush := 5 }

/-! Helper lemmas: C string functions observe only the bytes before the
first NUL byte. -/

theorem cstrlen_eq_beforeNul_length (s : ByteStr) :
    cstrlen s = (beforeNul s).length := by
  induction s with
  | nil => rfl
  | cons b bs ih =>
    simp only [cstrlen, beforeNul]
    by_cases h : b = 0
    · simp [h]
    · simp [h, ih]

theorem atoiLoop_beforeNul (s : ByteStr) (acc : Int) :
    atoiLoop (beforeNul s) acc = atoiLoop s acc := by
  induction s generalizing acc with
  | nil => rfl
  | cons b bs ih =>
    simp only [beforeNul]
    by_cases h : b = 0
    · subst h
      simp [atoiLoop]
    · simp only [if_neg h, atoiLoop]
      by_cases hd : (48 ≤ b && b ≤ 57) = true
      · simp [hd, ih]
      · simp [hd]

theorem beforeNul_dropWhile_space (s : ByteStr) :
    (beforeNul s).dropWhile isSpaceByte = beforeNul (s.dropWhile isSpaceByte) := by
  induction s with
  | nil => rfl
  | cons b bs ih =>
    simp only [beforeNul]
    by_cases h : b = 0
    · subst h
      simp [List.dropWhile, isSpaceByte, beforeNul]
    · simp only [if_neg h, List.dropWhile]
      by_cases hs : isSpaceByte b = true
      · simp [hs, ih]
      · simp [hs, beforeNul, h]

theorem atoi_beforeNul (s : ByteStr) : atoi (beforeNul s) = atoi s := by
  unfold atoi
  rw [beforeNul_dropWhile_space]
  cases hd : s.dropWhile isSpaceByte with
  | nil => rfl
  | cons c rest =>
    simp only [beforeNul]
    by_cases hc : c = 0
    · subst hc
      simp [atoiLoop]
    · simp only [if_neg hc]
      by_cases h43 : c = 43
      · simp [h43, atoiLoop_beforeNul]
      · by_cases h45 : c = 45
        · simp [h43, h45, atoiLoop_beforeNul]
        · have h := atoiLoop_beforeNul (c :: rest) 0
          simp only [beforeNul, if_neg hc] at h
          simp [h43, h45, h]

/-! Claims about the blob handler. -/

/-- C1 counterexample: on a table with stream 5 open holding byte [1] and
a blob instruction with index argument the digit 5 (byte 53) and data
byte [7], the handler returns 0 but the accumulated buffer of stream 5 is
NOT extended by the data bytes, while the specification-side append would
produce the extended buffer. The claim that handling a blob appends the
data bytes to the stream buffer is therefore false of the code (the
handler body is an explicit stub). -/
theorem blob_append_not_performed :
    (guacenc_handle_blob [[53], [7]] ⟨[(5, [1])]⟩).ret = 0
    ∧ ¬ (streamLookup (guacenc_handle_blob [[53], [7]] ⟨[(5, [1])]⟩).st 5
          = some ([1] ++ [7]))
    ∧ spec_handle_blob [[53], [7]] ⟨[(5, [1])]⟩ = some ⟨[(5, [1, 7])]⟩ := by
  decide

/-- C1 (amended): for every blob instruction with at least 2 arguments the
handler returns success (zero) and leaves the stream table unchanged; the
stub logs the data and discards it instead of appending it. -/
theorem blob_stub_returns_zero_state_unchanged
    (argv : List ByteStr) (st : GuacencState) (h : 2 ≤ argv.length) :
    (guacenc_handle_blob argv st).ret = 0
    ∧ (guacenc_handle_blob argv st).st = st := by
  unfold guacenc_handle_blob
  rw [if_neg (by omega)]
  exact ⟨rfl, rfl⟩

/-- Witness for the amended C1 theorem at a concrete instruction. -/
theorem blob_stub_returns_zero_state_unchanged_witness :
    (guacenc_handle_blob [[53], [7]] ⟨[(5, [1])]⟩).ret = 0
    ∧ (guacenc_handle_blob [[53], [7]] ⟨[(5, [1])]⟩).st = ⟨[(5, [1])]⟩ :=
  blob_stub_returns_zero_state_unchanged [[53], [7]] ⟨[(5, [1])]⟩ (by decide)

/-- C2: a blob instruction with fewer than 2 arguments makes the handler
return the non-zero value 1, reach no stub log line, and change no state. -/
theorem blob_too_few_args_error
    (argv : List ByteStr) (st : GuacencState) (h : argv.length < 2) :
    guacenc_handle_blob argv st = { ret := 1, blobLog := none, st := st } := by
  unfold guacenc_handle_blob
  rw [if_pos h]

/-- Witness for the C2 theorem at a concrete one-argument instruction. -/
theorem blob_too_few_args_error_witness :
    guacenc_handle_blob [[53]] ⟨[]⟩ = { ret := 1, blobLog := none, st := ⟨[]⟩ } :=
  blob_too_few_args_error [[53]] ⟨[]⟩ (by decide)

/-- C3 counterexample: on an empty stream table (index 5 never opened) the
handler returns 0 (success), contradicting the claim that an append to an
unopened index yields a non-zero fatal reference error. -/
theorem blob_unopened_stream_succeeds :
    streamLookup ⟨[]⟩ (atoi [53]) = none
    ∧ (guacenc_handle_blob [[53], [7]] ⟨[]⟩).ret = 0 := by
  decide

/-- C3 (amended): the stub handler performs no reference check: it returns
success (zero) even when the stream index of the instruction was never
opened (or is closed), instead of a fatal reference error. -/
theorem blob_no_reference_check
    (argv : List ByteStr) (st : GuacencState) (h : 2 ≤ argv.length)
    (_hopen : streamLookup st (atoi (argv.getD 0 [])) = none) :
    (guacenc_handle_blob argv st).ret = 0 := by
  unfold guacenc_handle_blob
  rw [if_neg (by omega)]

/-- Witness for the amended C3 theorem at a concrete instruction. -/
theorem blob_no_reference_check_witness :
    (guacenc_handle_blob [[53], [7]] ⟨[]⟩).ret = 0 :=
  blob_no_reference_check [[53], [7]] ⟨[]⟩ (by decide) (by decide)

/-- C4 counterexample: two blob instructions whose data arguments (of
declared length 3) differ only after an embedded NUL byte are handled
identically, and the logged data length is 1 (the strlen, the length up
to the first NUL), not the declared byte length 3. -/
theorem blob_nul_data_counterexample :
    guacenc_handle_blob [[53], [65, 0, 66]] ⟨[]⟩
      = guacenc_handle_blob [[53], [65, 0, 67]] ⟨[]⟩
    ∧ (guacenc_handle_blob [[53], [65, 0, 66]] ⟨[]⟩).blobLog = some ⟨5, 1⟩
    ∧ ([65, 0, 66] : ByteStr).length = 3 := by
  decide

/-- C4 (amended): the handler observes each argument only up to its first
NUL byte: instructions whose arguments agree before the first NUL are
handled identically, and the processed (logged) data length is the strlen
of the data argument, the length of its bytes before the first NUL. -/
theorem blob_nul_semantics
    (a1 a2 d1 d2 : ByteStr) (st : GuacencState)
    (ha : beforeNul a1 = beforeNul a2) (hd : beforeNul d1 = beforeNul d2) :
    guacenc_handle_blob [a1, d1] st = guacenc_handle_blob [a2, d2] st
    ∧ (guacenc_handle_blob [a1, d1] st).blobLog
        = some ⟨atoi a1, (beforeNul d1).length⟩ := by
  have hlen : cstrlen d1 = cstrlen d2 := by
    rw [cstrlen_eq_beforeNul_length, cstrlen_eq_beforeNul_length, hd]
  have hatoi : atoi a1 = atoi a2 := by
    rw [← atoi_beforeNul a1, ← atoi_beforeNul a2, ha]
  unfold guacenc_handle_blob
  refine ⟨?_, ?_⟩
  · simp only [List.length_cons, List.length_nil]
    rw [if_neg (by omega), if_neg (by omega)]
    simp only [List.getD_cons_zero, List.getD_cons_succ]
    rw [hatoi, hlen]
  · simp only [List.length_cons, List.length_nil]
    rw [if_neg (by omega)]
    simp only [List.getD_cons_zero, List.getD_cons_succ,
      cstrlen_eq_beforeNul_length]

/-- Witness for the amended C4 theorem at concrete instructions differing
only after embedded NUL bytes. -/
theorem blob_nul_semantics_witness :
    guacenc_handle_blob [[53, 0, 99], [65, 0, 66]] ⟨[]⟩
      = guacenc_handle_blob [[53, 0, 88], [65, 0, 67]] ⟨[]⟩
    ∧ (guacenc_handle_blob [[53, 0, 99], [65, 0, 66]] ⟨[]⟩).blobLog
        = some ⟨5, 1⟩ := by
  have h := blob_nul_semantics [53, 0, 99] [53, 0, 88] [65, 0, 66] [65, 0, 67]
    ⟨[]⟩ (by decide) (by decide)
  refine ⟨h.1, ?_⟩
  rw [h.2]
  decide

/-! Claims about the Frame Clock ordering check and the encode result. -/

theorem runSyncs_append (l : Option Int) (pre rest : List Int) :
    runSyncs l (pre ++ rest) =
      (runSyncs l pre).bind (fun l2 => runSyncs l2 rest) := by
  induction pre generalizing l with
  | nil => rfl
  | cons t ts ih =>
    cases l with
    | none =>
      simp only [List.cons_append, runSyncs]
      exact ih (some t)
    | some p =>
      simp only [List.cons_append, runSyncs]
      by_cases h : t < p
      · simp [h, Except.bind]
      · simp only [if_neg h]
        exact ih (some t)

theorem runSyncs_ok_of_chain (p : Int) (ts : List Int)
    (h : List.Chain (· ≤ ·) p ts) :
    ∃ l, runSyncs (some p) ts = Except.ok l := by
  induction ts generalizing p with
  | nil => exact ⟨some p, rfl⟩
  | cons t ts ih =>
    cases h with
    | cons hpt hchain =>
      simp only [runSyncs]
      rw [if_neg (by omega)]
      exact ih t hchain

/-- C5: a synchronization timestamp lower than the previously observed one
makes the replay fail with the fatal ordering error no matter what
instructions follow (nothing after it is processed), while every
non-decreasing timestamp sequence is processed without error. -/
theorem sync_monotonicity :
    (∀ ts : List Int, List.Chain' (· ≤ ·) ts →
        ∃ l, runSyncs none ts = Except.ok l)
    ∧ (∀ pre p t post, runSyncs none pre = Except.ok (some p) → t < p →
        runSyncs none (pre ++ t :: post) = Except.error ()) := by
  constructor
  · intro ts hchain
    cases ts with
    | nil => exact ⟨none, rfl⟩
    | cons t rest => exact runSyncs_ok_of_chain t rest hchain
  · intro pre p t post hpre hlt
    rw [runSyncs_append, hpre]
    simp only [Except.bind, runSyncs]
    rw [if_pos hlt]

/-- Witness for the C5 theorem: a concrete non-decreasing sequence
succeeds, and a concrete sequence whose third timestamp drops below the
second fails with the ordering error regardless of the remaining input. -/
theorem sync_monotonicity_witness :
    (∃ l, runSyncs none [3, 5, 5, 9] = Except.ok l)
    ∧ runSyncs none ([3, 5] ++ 2 :: [9]) = Except.error () :=
  ⟨sync_monotonicity.1 [3, 5, 5, 9] (by norm_num [List.chain'_cons]),
   sync_monotonicity.2 [3, 5] 5 2 [9] (by rfl) (by decide)⟩

/-- C6: the encode operation returns zero exactly when the replay
completed successfully: the encoder initialized, the replay of the dump
hit no fatal error, and the output could be written; every failure makes
it return a non-zero value. -/
theorem guacenc_encode_zero_iff_success :
    ∀ (encoderInitOk : Bool) (syncs : List Int) (writeOk : Bool),
      guacenc_encode encoderInitOk syncs writeOk = 0
        ↔ (encoderInitOk = true
            ∧ (∃ l, runSyncs none syncs = Except.ok l)
            ∧ writeOk = true) := by
  intro e s w
  unfold guacenc_encode guacenc_encode_outcome
  cases e with
  | false => simp [guacenc_encode_ret]
  | true =>
    cases hr : runSyncs none s with
    | error u => simp [guacenc_encode_ret, hr]
    | ok l =>
      cases w with
      | false => simp [guacenc_encode_ret, hr]
      | true => simp [guacenc_encode_ret, hr]

/-- Witness for the C6 theorem at concrete inputs. -/
theorem guacenc_encode_zero_iff_success_witness :
    guacenc_encode true [1, 2] true = 0
      ↔ (true = true ∧ (∃ l, runSyncs none [1, 2] = Except.ok l)
          ∧ true = true) :=
  guacenc_encode_zero_iff_success true [1, 2] true

/-! Claims about the RDP display sizing. -/

theorem cdiv_eq_ediv (a b : Int) (ha : 0 ≤ a) (hb : 0 ≤ b) :
    cdiv a b = a / b :=
  Int.tdiv_eq_ediv ha hb

theorem fit_fst_bounds (MINS MAXS a b : Int) (hma : MINS ≤ MAXS) :
    MINS ≤ (guac_rdp_disp_fit MINS MAXS a b).1
    ∧ (guac_rdp_disp_fit MINS MAXS a b).1 ≤ MAXS := by
  unfold guac_rdp_disp_fit
  by_cases h1 : a < MINS
  · simp [h1, hma]
  · by_cases h2 : a > MAXS
    · simp [h1, h2, hma]
    · simp only [if_neg h1, if_neg h2]
      constructor
      · omega
      · omega

theorem fit_snd_pos (MINS MAXS a b : Int) (hm : 0 < MINS) (hma : MINS ≤ MAXS)
    (ha : 1 ≤ a) (hb : 1 ≤ b) :
    1 ≤ (guac_rdp_disp_fit MINS MAXS a b).2 := by
  unfold guac_rdp_disp_fit
  by_cases h1 : a < MINS
  · simp only [if_pos h1]
    by_cases h2 : cdiv (b * MINS) a > MAXS
    · simp [h2]
      omega
    · simp only [h2, if_neg, ite_false]
      rw [cdiv_eq_ediv _ _ (mul_nonneg (by omega) (by omega)) (by omega)]
      rw [Int.le_ediv_iff_mul_le (by omega)]
      have h3 : MINS ≤ b * MINS := le_mul_of_one_le_left (by omega) hb
      linarith
  · by_cases h2 : a > MAXS
    · simp only [if_neg h1, if_pos h2]
      by_cases h3 : cdiv (b * MAXS) a < MINS
      · simp [h3]
        omega
      · simp [h3]
        omega
    · simp only [if_neg h1, if_neg h2]
      exact hb

theorem fit_snd_bounds (MINS MAXS a b : Int) (hm : 0 < MINS)
    (hma : MINS ≤ MAXS) (ha : 1 ≤ a) (hbl : MINS ≤ b) (hbu : b ≤ MAXS) :
    MINS ≤ (guac_rdp_disp_fit MINS MAXS a b).2
    ∧ (guac_rdp_disp_fit MINS MAXS a b).2 ≤ MAXS := by
  unfold guac_rdp_disp_fit
  by_cases h1 : a < MINS
  · simp only [if_pos h1]
    have hq : MINS ≤ cdiv (b * MINS) a := by
      rw [cdiv_eq_ediv _ _ (mul_nonneg (by omega) (by omega)) (by omega)]
      rw [Int.le_ediv_iff_mul_le (by omega)]
      nlinarith
    by_cases h2 : cdiv (b * MINS) a > MAXS
    · simp [h2]
      omega
    · simp [h2]
      omega
  · by_cases h2 : a > MAXS
    · simp only [if_neg h1, if_pos h2]
      have hq : cdiv (b * MAXS) a ≤ MAXS := by
        rw [cdiv_eq_ediv _ _ (mul_nonneg (by omega) (by omega)) (by omega)]
        refine Int.ediv_le_of_le_mul (by omega) ?_
        nlinarith
      by_cases h3 : cdiv (b * MAXS) a < MINS
      · simp [h3]
        omega
      · simp [h3]
        omega
    · simp only [if_neg h1, if_neg h2]
      exact ⟨hbl, hbu⟩

/-- C7: for requested width and height at least 1, with an even positive
minimum bound not exceeding the maximum bound, guac_rdp_disp_set_size
stores a requested_width and requested_height inside [MINS, MAXS] with an
even requested_width, and neither division performed inside the two
guac_rdp_disp_fit calls divides by zero (the divisors are the incoming
width and the height produced by the first fit, both nonzero). -/
theorem guac_rdp_disp_set_size_bounds
    (MINS MAXS width height : Int) (disp : guac_rdp_disp)
    (hm : 0 < MINS) (heven : MINS % 2 = 0) (hma : MINS ≤ MAXS)
    (hw : 1 ≤ width) (hh : 1 ≤ height) :
    (MINS ≤ (guac_rdp_disp_set_size MINS MAXS disp width height).requested_width
      ∧ (guac_rdp_disp_set_size MINS MAXS disp width height).requested_width ≤ MAXS
      ∧ MINS ≤ (guac_rdp_disp_set_size MINS MAXS disp width height).requested_height
      ∧ (guac_rdp_disp_set_size MINS MAXS disp width height).requested_height ≤ MAXS
      ∧ (guac_rdp_disp_set_size MINS MAXS disp width height).requested_width % 2 = 0)
    ∧ (width ≠ 0 ∧ (guac_rdp_disp_fit MINS MAXS width height).2 ≠ 0) := by
  have hp1 := fit_fst_bounds MINS MAXS width height hma
  have hp1snd := fit_snd_pos MINS MAXS width height hm hma hw hh
  have hp2fst := fit_fst_bounds MINS MAXS
    (guac_rdp_disp_fit MINS MAXS width height).2
    (guac_rdp_disp_fit MINS MAXS width height).1 hma
  have hp2snd := fit_snd_bounds MINS MAXS
    (guac_rdp_disp_fit MINS MAXS width height).2
    (guac_rdp_disp_fit MINS MAXS width height).1 hm hma hp1snd hp1.1 hp1.2
  unfold guac_rdp_disp_set_size guac_rdp_disp_set_size_dims
  simp only []
  set p1 := guac_rdp_disp_fit MINS MAXS width height with hp1def
  set p2 := guac_rdp_disp_fit MINS MAXS p1.2 p1.1 with hp2def
  have hcm : cmod p2.2 2 = p2.2 % 2 := Int.tmod_eq_emod (by omega) (by omega)
  refine ⟨?_, by omega, by omega⟩
  by_cases hodd : cmod p2.2 2 = 1
  · simp only [hodd, if_pos]
    rw [hcm] at hodd
    refine ⟨by omega, by omega, by omega, by omega, by omega⟩
  · simp only [hodd, ite_false]
    rw [hcm] at hodd
    refine ⟨by omega, by omega, by omega, by omega, by omega⟩

/-- Witness for the C7 theorem: concrete bounds 200 and 8192 (even
minimum) with a requested 1024 by 768 size. -/
theorem guac_rdp_disp_set_size_bounds_witness :
    (200 ≤ (guac_rdp_disp_set_size 200 8192 ⟨0, 0, 0⟩ 1024 768).requested_width
      ∧ (guac_rdp_disp_set_size 200 8192 ⟨0, 0, 0⟩ 1024 768).requested_width ≤ 8192
      ∧ 200 ≤ (guac_rdp_disp_set_size 200 8192 ⟨0, 0, 0⟩ 1024 768).requested_height
      ∧ (guac_rdp_disp_set_size 200 8192 ⟨0, 0, 0⟩ 1024 768).requested_height ≤ 8192
      ∧ (guac_rdp_disp_set_size 200 8192 ⟨0, 0, 0⟩ 1024 768).requested_width % 2 = 0)
    ∧ ((1024 : Int) ≠ 0 ∧ (guac_rdp_disp_fit 200 8192 1024 768).2 ≠ 0) :=
  guac_rdp_disp_set_size_bounds 200 8192 1024 768 ⟨0, 0, 0⟩
    (by decide) (by decide) (by decide) (by decide) (by decide)

/-! Claims about the typescript buffering. -/

theorem typescript_flush_length (maxDelay now : Int)
    (ts : guac_terminal_typescript) :
    (guac_terminal_typescript_flush maxDelay now ts).length = 0 := by
  unfold guac_terminal_typescript_flush
  by_cases h : ts.length = 0
  · simp [h]
  · simp [h]

theorem typescript_flush_buffer (maxDelay now : Int)
    (ts : guac_terminal_typescript) :
    (guac_terminal_typescript_flush maxDelay now ts).buffer = ts.buffer := by
  unfold guac_terminal_typescript_flush
  by_cases h : ts.length = 0
  · simp [h]
  · simp [h]

/-- C8: the buffer-length invariant length at most sizeof buffer is
preserved: write flushes first exactly when the buffer is full, so the
index it appends at stays strictly below the capacity, and flush leaves
the length at zero. -/
theorem typescript_length_invariant
    (maxDelay now : Int) (c : Nat) (ts : guac_terminal_typescript)
    (hcap : 0 < ts.buffer.length) (hinv : ts.length ≤ ts.buffer.length) :
    ((guac_terminal_typescript_write maxDelay now ts c).length
      ≤ (guac_terminal_typescript_write maxDelay now ts c).buffer.length)
    ∧ ((if ts.length = ts.buffer.length
        then guac_terminal_typescript_flush maxDelay now ts
        else ts).length < ts.buffer.length)
    ∧ (guac_terminal_typescript_flush maxDelay now ts).length = 0 := by
  have h0 := typescript_flush_length maxDelay now ts
  have hb := typescript_flush_buffer maxDelay now ts
  refine ⟨?_, ?_, h0⟩
  · unfold guac_terminal_typescript_write
    by_cases heq : ts.length = ts.buffer.length
    · simp only [if_pos heq]
      simp only [List.length_set, h0, hb]
      omega
    · simp only [if_neg heq]
      simp only [List.length_set]
      omega
  · by_cases heq : ts.length = ts.buffer.length
    · simp only [if_pos heq, h0]
      omega
    · simp only [if_neg heq]
      omega

/-- Witness for the C8 theorem at a concrete typescript state with a full
check on the appended index. -/
theorem typescript_length_invariant_witness :
    ((guac_terminal_typescript_write 1000 50 tsSample 7).length
      ≤ (guac_terminal_typescript_write 1000 50 tsSample 7).buffer.length)
    ∧ ((if tsSample.length = tsSample.buffer.length
        then guac_terminal_typescript_flush 1000 50 tsSample
        else tsSample).length < tsSample.buffer.length)
    ∧ (guac_terminal_typescript_flush 1000 50 tsSample).length = 0 :=
  typescript_length_invariant 1000 50 7 tsSample (by decide) (by decide)

/-- C9: a flush of an empty buffer is a no-op that changes no typescript
state (and in particular writes nothing to the data or timing file), and
a second consecutive flush never changes the state left by the first, so
two consecutive flushes produce the same file contents as one. -/
theorem typescript_flush_idempotent
    (maxDelay t1 t2 : Int) (ts : guac_terminal_typescript) :
    (ts.length = 0 → guac_terminal_typescript_flush maxDelay t1 ts = ts)
    ∧ guac_terminal_typescript_flush maxDelay t2
        (guac_terminal_typescript_flush maxDelay t1 ts)
      = guac_terminal_typescript_flush maxDelay t1 ts := by
  have hnoop : ∀ (t : Int) (s : guac_terminal_typescript), s.length = 0 →
      guac_terminal_typescript_flush maxDelay t s = s := by
    intro t s h
    unfold guac_terminal_typescript_flush
    simp [h]
  refine ⟨hnoop t1 ts, ?_⟩
  exact hnoop t2 _ (typescript_flush_length maxDelay t1 ts)

/-- Witness for the C9 theorem at a concrete empty-buffer state. -/
theorem typescript_flush_idempotent_witness :
    guac_terminal_typescript_flush 1000 7 tsSampleEmpty = tsSampleEmpty
    ∧ guac_terminal_typescript_flush 1000 9
        (guac_terminal_typescript_flush 1000 7 tsSampleEmpty)
      = guac_terminal_typescript_flush 1000 7 tsSampleEmpty :=
  ⟨(typescript_flush_idempotent 1000 7 9 tsSampleEmpty).1 rfl,
   (typescript_flush_idempotent 1000 7 9 tsSampleEmpty).2⟩

end Guac
